import Mathlib

/-!
Shallow embedding of the discobotmoosic music bot core, for checking the
natural-language specification against the code.

Modules embedded:
  - src/utils/music_utils.py  (YTDLSource: resolution cache, in-flight set,
    worker-pool submission, search and direct resolution shapes)
  - src/utils/voice_manager.py (VoiceConnectionManager: connection cooldown,
    retry with exponential backoff, per-guild timer tasks)
  - src/cogs/music_improved.py (ImprovedMusic: bounded playback queue,
    enqueue step of process_songs, the play_next drain loop)
  - src/config.py (constants)

Python dictionaries are modelled as association lists, Python sets as lists
without duplicates, wall-clock time as a natural number of seconds, and the
blocking extraction running in the worker pool as an oracle function supplied
to the embedded operation.
-/

/-! ## Association-list model of Python dict and set operations -/

/-- Model of Python dict read `m.get(k)` / `m[k]`: first binding for the key. -/
def dictGet {κ α : Type} [DecidableEq κ] : List (κ × α) → κ → Option α
  | [], _ => none
  | (a, b) :: rest, k => if a = k then some b else dictGet rest k

/-- Model of Python dict assignment `m[k] = v`: overwrite or add the binding. -/
def dictSet {κ α : Type} [DecidableEq κ] : List (κ × α) → κ → α → List (κ × α)
  | [], k, v => [(k, v)]
  | (a, b) :: rest, k, v => if a = k then (k, v) :: rest else (a, b) :: dictSet rest k v

/-- Model of Python dict deletion `del m[k]`. -/
def dictErase {κ α : Type} [DecidableEq κ] : List (κ × α) → κ → List (κ × α)
  | [], _ => []
  | (a, b) :: rest, k => if a = k then dictErase rest k else (a, b) :: dictErase rest k

/-- Model of Python set removal `s.discard(x)`. -/
def setDiscard : List String → String → List String
  | [], _ => []
  | x :: rest, q => if x = q then setDiscard rest q else x :: setDiscard rest q

/-! ## src/config.py -/

/-- config.py line 12. -/
def MAX_QUEUE_SIZE : Nat := 100

/-! ## src/utils/music_utils.py -/

/-- The dictionary returned by the extraction library (yt_dlp info dict) as the
code reads it: each field read with `.get` is optional; an absent key is `none`.
Only the keys the embedded code touches are modelled. -/
structure Info where
  webpage_url : Option String
  title : Option String
  thumbnail : Option String
  url : Option String
deriving DecidableEq

/-- The normalized descriptor dictionary built by `search_song` and
`get_audio_source` (music_utils.py lines 67-72 and 82-90). A key absent from
the Python dict (the cache-hit branch builds no thumbnail key) is `none`.
The same dict shape is what `process_songs` appends to the playback queue. -/
structure Descriptor where
  webpage_url : String
  title : String
  thumbnail : Option String
  url : Option String
deriving DecidableEq

/-- Mutable state of a `YTDLSource` instance (music_utils.py lines 28-31):
`url_cache`, `cache_expiry` and the in-flight set `download_in_progress`. -/
structure YTDLState where
  url_cache : List (String × String)
  cache_expiry : List (String × Nat)
  download_in_progress : List String
deriving DecidableEq

/-- music_utils.py line 30: `self.cache_duration = 3600`. -/
def cache_duration : Nat := 3600

/-- music_utils.py lines 35-39: return the cached URL when the key is present
and the current time is strictly below the recorded expiry (default 0);
otherwise return None. The function performs no deletion. -/
def get_cached_url (s : YTDLState) (now : Nat) (query : String) : Option String :=
  match dictGet s.url_cache query with
  | some u => if now < (dictGet s.cache_expiry query).getD 0 then some u else none
  | none => none

/-- music_utils.py lines 56-57: `url_cache[query] = info[url]` and
`cache_expiry[query] = time.time() + cache_duration`. -/
def cache_put (s : YTDLState) (now : Nat) (query url : String) : YTDLState :=
  { s with
    url_cache := dictSet s.url_cache query url,
    cache_expiry := dictSet s.cache_expiry query (now + cache_duration) }

/-- music_utils.py lines 42-46, executed atomically under `download_lock`:
if the query is already in flight return immediately (the caller gets None and
no extraction is submitted, flag `false`); otherwise add it to the in-flight
set and proceed to submit (flag `true`). -/
def extract_info_begin (s : YTDLState) (query : String) : Bool × YTDLState :=
  if query ∈ s.download_in_progress then (false, s)
  else (true, { s with download_in_progress := query :: s.download_in_progress })

/-- Outcome of the awaited worker-pool extraction (music_utils.py lines 49-54):
the executor returned an info dict or None (`done`), or the await itself was
torn down (timeout or task cancellation), which propagates as an exception. -/
inductive ExtractOutcome
  | done (info : Option Info)
  | timeout
  | cancelled
deriving DecidableEq

/-- music_utils.py lines 55-61: on a returned info dict holding a url, populate
the cache; in every case the `finally` block discards the query from the
in-flight set. Timeout and cancellation produce no result and no cache write
but still run the `finally` discard. -/
def extract_info_finish (s : YTDLState) (now : Nat) (query : String)
    (o : ExtractOutcome) : Option Info × YTDLState :=
  match o with
  | .done info =>
    let s1 := match info with
      | some i => match i.url with
        | some u => cache_put s now query u
        | none => s
      | none => s
    (info, { s1 with download_in_progress := setDiscard s1.download_in_progress query })
  | _ => (none, { s with download_in_progress := setDiscard s.download_in_progress query })

/-- music_utils.py lines 41-61, the whole call: dedup guard, then pool
submission, then cache write and in-flight discard. The extraction itself is
the oracle `extractor`. The third component records whether work was submitted
to the process pool. The `priority` parameter is bound but never read in the
source body, so it does not appear on the right-hand side. -/
def extract_info (s : YTDLState) (now : Nat) (extractor : String → ExtractOutcome)
    (query : String) (download : Bool) (priority : Nat) :
    Option Info × YTDLState × Bool :=
  match extract_info_begin s query with
  | (false, s1) => (none, s1, false)
  | (true, s1) =>
    let r := extract_info_finish s1 now query (extractor query)
    (r.1, r.2, true)

/-- music_utils.py lines 63-76: wrap the query as a search, call extract_info,
and build the descriptor from the mandatory keys webpage_url and title (a
missing mandatory key raises KeyError, which the surrounding except turns into
None). No cache lookup happens on this path. -/
def search_song (s : YTDLState) (now : Nat) (extractor : String → ExtractOutcome)
    (search_query : String) (priority : Nat) :
    Option Descriptor × YTDLState × Bool :=
  let r := extract_info s now extractor ("ytsearch1:" ++ search_query) false priority
  match r.1 with
  | some i =>
    match i.webpage_url, i.title with
    | some w, some t => (some ⟨w, t, i.thumbnail, i.url⟩, r.2.1, r.2.2)
    | _, _ => (none, r.2.1, r.2.2)
  | none => (none, r.2.1, r.2.2)

/-- music_utils.py lines 78-94: direct resolution. Cache check first; on a hit
return the three-key dict immediately (title is the literal Unknown, no
thumbnail key, webpage_url is the input url) without touching the pool;
otherwise call extract_info and normalize with `.get` defaults. -/
def get_audio_source (s : YTDLState) (now : Nat) (extractor : String → ExtractOutcome)
    (url : String) (priority : Nat) :
    Option Descriptor × YTDLState × Bool :=
  match get_cached_url s now url with
  | some cached => (some ⟨url, "Unknown", none, some cached⟩, s, false)
  | none =>
    let r := extract_info s now extractor url false priority
    match r.1 with
    | some i =>
      (some ⟨i.webpage_url.getD url, i.title.getD "Unknown", i.thumbnail, i.url⟩,
        r.2.1, r.2.2)
    | none => (none, r.2.1, r.2.2)

/-- Pending work of the ProcessPoolExecutor (music_utils.py line 26).
Submissions enter an internal FIFO work queue and workers start them in
submission order; the executor has no priority channel. Each pending entry
records the query together with the priority value its caller held, to state
ordering properties; the priority is never transmitted to the pool
(lines 49-54 pass only extract_info_sync, query and options). -/
structure WorkerPool where
  pending : List (String × Nat)
deriving DecidableEq

/-- run_in_executor submission: append at the back of the FIFO work queue. -/
def submit_to_pool (p : WorkerPool) (job : String × Nat) : WorkerPool :=
  ⟨p.pending ++ [job]⟩

/-- Order in which a saturated pool starts (and, for equal-length work,
completes) pending jobs: front first, in submission order. -/
def service_order (p : WorkerPool) : List (String × Nat) := p.pending

/-- The argument tuple extract_info hands to run_in_executor
(music_utils.py lines 49-54): only the query reaches the pool; the priority
parameter is dropped. -/
def extract_info_submission (query : String) (priority : Nat) : String := query

/-! ## src/utils/voice_manager.py -/

/-- voice_manager.py line 71: 10 second cooldown between attempts. -/
def cooldown_seconds : Nat := 10

/-- voice_manager.py lines 65-73: allow a new attempt when the guild has no
recorded attempt, or when strictly more than the cooldown has elapsed since
the recorded one. Times are seconds; `attempts` models
`_connection_attempts`. -/
def should_retry_connection (attempts : List (Nat × Nat)) (guild_id now : Nat) : Bool :=
  match dictGet attempts guild_id with
  | none => true
  | some last => decide (cooldown_seconds < now - last)

/-- Result of one raw connection attempt, as the code distinguishes them
(voice_manager.py lines 129-195): connect succeeded and validate_session
passed (`ok`); connected but validation failed, so force-disconnect and retry
(`invalid`); ConnectionClosed with a code; timeout; any other exception.
The ClientException already-connected recovery branch depends on the external
bot.voice_clients list and is folded into `err` (when no valid existing
connection is found the code likewise proceeds to the next attempt). -/
inductive AttemptOutcome
  | ok
  | invalid
  | errClosed (code : Nat)
  | errTimeout
  | err
deriving DecidableEq

/-- Observable trace of connect_with_retry: the returned handle (identified by
the attempt index that produced it), the number of transport connect calls
performed, and the backoff sleeps performed, in order. The extra 15 second
wait of the 4006 branch and the post-connect 1 second stability wait are not
backoff sleeps and are not recorded. -/
structure ConnectTrace where
  result : Option Nat
  transport_ops : Nat
  delays : List Nat
deriving DecidableEq

/-- voice_manager.py line 122: `min(backoff_base ** attempt, 30)` with the
default base 2.0, exact in naturals for the attempts in range. -/
def backoff_time (base : Nat) (attempt : Nat) : Nat := min (base ^ attempt) 30

/-- voice_manager.py lines 115-198: `for attempt in range(max_retries)`, with
a backoff sleep before every attempt except the first, one transport connect
call per attempt, success returning the handle, every failure outcome falling
through to the next attempt, and None after the loop. `fuel` is the number of
attempts remaining, `attempt` the current zero-based index. -/
def connect_loop (oracle : Nat → AttemptOutcome) :
    Nat → Nat → Nat → List Nat → ConnectTrace
  | 0, _, ops, delays => ⟨none, ops, delays.reverse⟩
  | fuel + 1, attempt, ops, delays =>
    match oracle attempt with
    | .ok =>
      ⟨some attempt, ops + 1,
        (if 0 < attempt then backoff_time 2 attempt :: delays else delays).reverse⟩
    | _ =>
      connect_loop oracle fuel (attempt + 1) (ops + 1)
        (if 0 < attempt then backoff_time 2 attempt :: delays else delays)

/-- voice_manager.py lines 96-198: under the per-guild lock, reject on
cooldown before any transport operation, otherwise run the attempt loop.
Stale-connection cleanup and the attempt-timestamp updates do not affect the
recorded trace and are elided; `transport_ops` counts channel.connect calls. -/
def connect_with_retry (attempts : List (Nat × Nat)) (guild_id now : Nat)
    (oracle : Nat → AttemptOutcome) (max_retries : Nat) : ConnectTrace :=
  if should_retry_connection attempts guild_id now then
    connect_loop oracle max_retries 0 0 []
  else ⟨none, 0, []⟩

/-- The three per-guild timer-task kinds of VoiceConnectionManager:
`_cleanup_tasks` holds the session-refresh task, `_keepalive_tasks` the
keepalive task, `_inactivity_tasks` the inactivity timer. -/
inductive TimerKind
  | refresh
  | keepalive
  | inactivity
deriving DecidableEq

/-- Task bookkeeping of VoiceConnectionManager (voice_manager.py lines 18-20):
the three guild-to-task dicts, plus the set of task objects currently alive
(created and neither cancelled nor self-terminated), each identified by a
fresh id drawn from `nextId`. -/
structure TimerSys where
  nextId : Nat
  alive : List (Nat × TimerKind × Nat)
  cleanup_tasks : List (Nat × Nat)
  keepalive_tasks : List (Nat × Nat)
  inactivity_tasks : List (Nat × Nat)

/-- The dict tracking tasks of a given kind. -/
def TimerSys.tracked (s : TimerSys) (k : TimerKind) : List (Nat × Nat) :=
  match k with
  | .refresh => s.cleanup_tasks
  | .keepalive => s.keepalive_tasks
  | .inactivity => s.inactivity_tasks

/-- Replace the dict tracking tasks of a given kind. -/
def setTracked (s : TimerSys) (k : TimerKind) (m : List (Nat × Nat)) : TimerSys :=
  match k with
  | .refresh => { s with cleanup_tasks := m }
  | .keepalive => { s with keepalive_tasks := m }
  | .inactivity => { s with inactivity_tasks := m }

/-- Cancel one task object: remove it from the alive set (cancelling an
already-finished task is a no-op, as in asyncio). -/
def removeAlive : List (Nat × TimerKind × Nat) → Nat → TimerKind → Nat →
    List (Nat × TimerKind × Nat)
  | [], _, _, _ => []
  | t :: rest, g, k, id =>
    if t.1 = g ∧ t.2.1 = k ∧ t.2.2 = id then removeAlive rest g k id
    else t :: removeAlive rest g k id

/-- Number of alive tasks of a given guild and kind. -/
def countAliveL : List (Nat × TimerKind × Nat) → Nat → TimerKind → Nat
  | [], _, _ => 0
  | t :: rest, g, k =>
    (if t.1 = g ∧ t.2.1 = k then 1 else 0) + countAliveL rest g k

/-- The task-creation pattern used at every creation site
(voice_manager.py lines 145-149, 152-156, 287-297): if the guild is in the
dict, cancel the tracked task; then create a fresh task and store it in the
dict. -/
def startTimer (s : TimerSys) (g : Nat) (k : TimerKind) : TimerSys :=
  let alive2 := match dictGet (s.tracked k) g with
    | some id => removeAlive s.alive g k id
    | none => s.alive
  setTracked { s with nextId := s.nextId + 1, alive := (g, k, s.nextId) :: alive2 }
    k (dictSet (s.tracked k) g s.nextId)

/-- The cancel-and-delete pattern of cleanup_stale_connection
(voice_manager.py lines 47-60) and cancel_inactivity_timer (lines 299-304),
per kind: cancel the tracked task and remove the dict entry. -/
def cancelTimer (s : TimerSys) (g : Nat) (k : TimerKind) : TimerSys :=
  match dictGet (s.tracked k) g with
  | some id =>
    setTracked { s with alive := removeAlive s.alive g k id } k
      (dictErase (s.tracked k) g)
  | none => s

/-- A timer task terminating on its own (loop condition false, keepalive send
failure, inactivity timer firing): it leaves the alive set; the dict may keep
pointing at the finished task. -/
def taskFinish (s : TimerSys) (g : Nat) (k : TimerKind) (id : Nat) : TimerSys :=
  { s with alive := removeAlive s.alive g k id }

/-- The operations the manager performs on its task bookkeeping. -/
inductive TimerOp
  | start (g : Nat) (k : TimerKind)
  | cancel (g : Nat) (k : TimerKind)
  | finish (g : Nat) (k : TimerKind) (id : Nat)

/-- Apply one operation. -/
def applyOp (s : TimerSys) : TimerOp → TimerSys
  | .start g k => startTimer s g k
  | .cancel g k => cancelTimer s g k
  | .finish g k id => taskFinish s g k id

/-- Run a sequence of operations from a state. -/
def runOps (s : TimerSys) (ops : List TimerOp) : TimerSys :=
  ops.foldl applyOp s

/-- Manager construction (voice_manager.py lines 13-22): empty dicts, no
tasks. -/
def initSys : TimerSys := ⟨0, [], [], [], []⟩

/-- Invariant of the task bookkeeping: per guild and kind at most one alive
task, and every alive task is exactly the one its tracking dict holds. -/
def TimerInv (s : TimerSys) : Prop :=
  ∀ g k, countAliveL s.alive g k ≤ 1 ∧
    ∀ id, (g, k, id) ∈ s.alive → dictGet (s.tracked k) g = some id

/-! ## src/cogs/music_improved.py -/

/-- Model of collections.deque with a maxlen bound
(music_improved.py line 30: `deque(maxlen=MAX_QUEUE_SIZE)`). Appending to a
full deque silently discards the opposite-end (oldest) element; a deque with
maxlen 0 stays empty. -/
structure BoundedQueue (α : Type) where
  maxlen : Nat
  items : List α
deriving DecidableEq

/-- deque.append with maxlen semantics. -/
def BoundedQueue.append {α : Type} (d : BoundedQueue α) (x : α) : BoundedQueue α :=
  if d.items.length < d.maxlen then ⟨d.maxlen, d.items ++ [x]⟩
  else if d.maxlen = 0 then ⟨0, []⟩
  else ⟨d.maxlen, d.items.tail ++ [x]⟩

/-- The outcome process_songs reports to the caller for one request
(music_improved.py lines 161-168). There is no queue-full variant anywhere in
the code. -/
inductive EnqueueReply
  | nowPlaying (title : String)
  | addedToQueue (title : String)
  | notFound
deriving DecidableEq

/-- The enqueue step of process_songs (music_improved.py lines 153-168) for a
request whose search already produced `found`: when a song with a url came
back, append it to the playback queue unconditionally and report success
(playing the song at once when idle, otherwise announcing the queue add);
otherwise report failure. The idle branch additionally drives play_next,
modelled separately. -/
def process_enqueue (q : BoundedQueue Descriptor) (found : Option Descriptor)
    (is_playing : Bool) : BoundedQueue Descriptor × EnqueueReply :=
  match found with
  | some song =>
    if song.url.isSome then
      (q.append song,
        if is_playing then .addedToQueue song.title else .nowPlaying song.title)
    else (q, .notFound)
  | none => (q, .notFound)

/-- How resolving one queued song goes in play_next
(music_improved.py lines 79-104): the streaming path succeeds, or streaming
fails and the download fallback succeeds, or both fail. -/
inductive ResolveOutcome
  | streamOk
  | downloadOk
  | bothFail
deriving DecidableEq

/-- The per-guild playback state play_next manipulates: the queue, the
current song, and the titles reported in error messages, in order. -/
structure PlaybackState where
  queue : List Descriptor
  current_song : Option Descriptor
  errors_reported : List String
deriving DecidableEq

/-- music_improved.py lines 60-137, the queue-advance recursion: with an
empty queue return (the inactivity timer starts); otherwise pop the head,
attempt streaming then the download fallback; on success the popped song
becomes current and the call returns; on total failure report the error and,
when the queue is still nonempty, recurse (the recursion on the empty queue
also returns unchanged, matching the guard). The resolver oracle is keyed by
the song page url. Prefetch scheduling does not change the queue and is
elided. -/
def play_next_go (resolve : String → ResolveOutcome) :
    List Descriptor → Option Descriptor → List String → PlaybackState
  | [], cur, errs => ⟨[], cur, errs⟩
  | song :: rest, cur, errs =>
    match resolve song.webpage_url with
    | .bothFail => play_next_go resolve rest cur (errs ++ [song.title])
    | _ => ⟨rest, some song, errs⟩

/-- Entry point of the queue-advance recursion. -/
def play_next (resolve : String → ResolveOutcome) (s : PlaybackState) : PlaybackState :=
  play_next_go resolve s.queue s.current_song s.errors_reported

/-! ## Concrete material for counterexamples and witnesses -/

/-- Empty YTDLSource state. -/
def emptyYTDL : YTDLState := ⟨[], [], []⟩

/-- State whose cache holds a fresh entry for the search key of the query
hello, inserted at time 0. -/
def cachedSearchState : YTDLState := cache_put emptyYTDL 0 "ytsearch1:hello" "X"

/-- Extraction oracle that returns no info dict. -/
def exNone : String → ExtractOutcome := fun _ => ExtractOutcome.done none

/-- Transport oracle failing the first two attempts with a timeout and
succeeding on the third. -/
def oracle3 : Nat → AttemptOutcome :=
  fun n => if n = 2 then AttemptOutcome.ok else AttemptOutcome.errTimeout

/-- A numbered song descriptor for filling queues. -/
def mkSong (i : Nat) : Descriptor := ⟨Nat.repr i, Nat.repr i, none, none⟩

/-- A playback queue already holding MAX_QUEUE_SIZE songs. -/
def fullQueue : BoundedQueue Descriptor :=
  ⟨MAX_QUEUE_SIZE, (List.range MAX_QUEUE_SIZE).map mkSong⟩

/-- A further resolved song to enqueue into the full queue. -/
def extraSong : Descriptor := ⟨"new url", "new title", none, some "stream"⟩

/-- Three-song queue material for the drain scenario. -/
def songA : Descriptor := ⟨"a", "A", none, none⟩

/-- Second song of the drain scenario. -/
def songB : Descriptor := ⟨"b", "B", none, none⟩

/-- Third song of the drain scenario. -/
def songC : Descriptor := ⟨"c", "C", none, none⟩

/-- Resolver for the drain scenario: the first song fails both paths, every
other song streams fine. -/
def resolveAB : String → ResolveOutcome :=
  fun u => if u = "a" then ResolveOutcome.bothFail else ResolveOutcome.streamOk

/-- Songs with a stream url for the amended queue-bound witness. -/
def songU : Descriptor := ⟨"u1", "U1", none, some "s1"⟩

/-- Second song with a stream url. -/
def songV : Descriptor := ⟨"u2", "U2", none, some "s2"⟩

/-! ## Helper lemmas -/

/-- Reading a key just written returns the written value. -/
theorem dictGet_dictSet_self {κ α : Type} [DecidableEq κ] (m : List (κ × α)) (k : κ) (v : α) :
    dictGet (dictSet m k v) k = some v := by
  induction m with
  | nil => simp [dictSet, dictGet]
  | cons p rest ih =>
    obtain ⟨a, b⟩ := p
    by_cases h : a = k
    · simp [dictSet, dictGet, h]
    · simp [dictSet, dictGet, h, ih]

/-- Writing one key leaves reads of other keys unchanged. -/
theorem dictGet_dictSet_ne {κ α : Type} [DecidableEq κ] (m : List (κ × α)) (k k2 : κ) (v : α)
    (h : k2 ≠ k) : dictGet (dictSet m k v) k2 = dictGet m k2 := by
  have h2 : ¬ k = k2 := fun hh => h hh.symm
  induction m with
  | nil => simp [dictSet, dictGet, h2]
  | cons p rest ih =>
    obtain ⟨a, b⟩ := p
    by_cases ha : a = k
    · subst ha
      simp [dictSet, dictGet, h2]
    · simp [dictSet, dictGet, ha, ih]

/-- Discarding an element removes it from the set. -/
theorem not_mem_setDiscard (l : List String) (q : String) : q ∉ setDiscard l q := by
  induction l with
  | nil => simp [setDiscard]
  | cons x rest ih =>
    by_cases h : x = q
    · simpa [setDiscard, h] using ih
    · simp [setDiscard, h]
      exact ⟨fun hq => h hq.symm, ih⟩


/-! ## Claim C2: cache TTL -/

/-- C2 counterexample: put the pair (k, v) at time 0; reading k at time 3600
(the TTL has elapsed) returns a miss, but the entry is NOT removed: the
url_cache still maps k to v. get_cached_url (music_utils.py lines 35-39)
performs no deletion at all, so the purge the claim requires never happens. -/
theorem C2_counterexample :
    get_cached_url (cache_put emptyYTDL 0 "k" "v") 3600 "k" = none ∧
    dictGet (cache_put emptyYTDL 0 "k" "v").url_cache "k" = some "v" := by
  decide

/-- C2 amended: putting (k, v) at time t and reading k before t plus the
3600 second TTL returns v; a read at or after expiry returns a miss but does
not remove the entry, which remains in the cache (until a later put
overwrites it). -/
theorem C2_amended_ttl (s : YTDLState) (t n1 n2 : Nat) (k v : String)
    (h1 : n1 < t + cache_duration) (h2 : t + cache_duration ≤ n2) :
    get_cached_url (cache_put s t k v) n1 k = some v ∧
    get_cached_url (cache_put s t k v) n2 k = none ∧
    dictGet (cache_put s t k v).url_cache k = some v := by
  have hu : dictGet (cache_put s t k v).url_cache k = some v := by
    simp [cache_put, dictGet_dictSet_self]
  have he : dictGet (cache_put s t k v).cache_expiry k = some (t + cache_duration) := by
    simp [cache_put, dictGet_dictSet_self]
  refine ⟨?_, ?_, hu⟩
  · simp [get_cached_url, hu, he, h1]
  · simp [get_cached_url, hu, he]
    omega

/-- C2 amended, witness at a concrete input. -/
theorem C2_amended_ttl_witness :
    ((100 : Nat) < 0 + cache_duration ∧ 0 + cache_duration ≤ 3600) ∧
    (get_cached_url (cache_put emptyYTDL 0 "key" "val") 100 "key" = some "val" ∧
     get_cached_url (cache_put emptyYTDL 0 "key" "val") 3600 "key" = none ∧
     dictGet (cache_put emptyYTDL 0 "key" "val").url_cache "key" = some "val") :=
  ⟨⟨by decide, by decide⟩,
   C2_amended_ttl emptyYTDL 0 100 3600 "key" "val" (by decide) (by decide)⟩

/-! ## Claim C3: in-flight deduplication -/

/-- C3: for a key not in flight, the guarded begin step starts the extraction
and marks the key in flight; a second, concurrent begin for the same key
finds it in flight and fails fast: it reports no extraction started and
leaves the state untouched, so two concurrent resolves trigger exactly one
extraction. And the finish step removes the key from the in-flight set
whatever the outcome (result, no result, timeout, cancellation), this is the
finally block of music_utils.py lines 59-61. -/
theorem C3_inflight_dedup (s s2 : YTDLState) (q : String) (now : Nat)
    (o : ExtractOutcome) (h : q ∉ s.download_in_progress) :
    (extract_info_begin s q).1 = true ∧
    (extract_info_begin (extract_info_begin s q).2 q).1 = false ∧
    (extract_info_begin (extract_info_begin s q).2 q).2 = (extract_info_begin s q).2 ∧
    q ∉ (extract_info_finish s2 now q o).2.download_in_progress := by
  refine ⟨?_, ?_, ?_, ?_⟩
  · simp [extract_info_begin, h]
  · simp [extract_info_begin, h]
  · simp [extract_info_begin, h]
  · cases o with
    | done info =>
      cases info with
      | none => simp [extract_info_finish, not_mem_setDiscard]
      | some i =>
        cases hu : i.url with
        | none => simp [extract_info_finish, hu, not_mem_setDiscard]
        | some u => simp [extract_info_finish, hu, cache_put, not_mem_setDiscard]
    | timeout => simp [extract_info_finish, not_mem_setDiscard]
    | cancelled => simp [extract_info_finish, not_mem_setDiscard]

/-- C3 witness at a concrete input. -/
theorem C3_inflight_dedup_witness :
    ("k" ∉ emptyYTDL.download_in_progress) ∧
    ((extract_info_begin emptyYTDL "k").1 = true ∧
     (extract_info_begin (extract_info_begin emptyYTDL "k").2 "k").1 = false ∧
     (extract_info_begin (extract_info_begin emptyYTDL "k").2 "k").2 =
       (extract_info_begin emptyYTDL "k").2 ∧
     "k" ∉ (extract_info_finish cachedSearchState 7 "k" ExtractOutcome.timeout).2.download_in_progress) :=
  ⟨by decide, C3_inflight_dedup emptyYTDL cachedSearchState "k" 7
    ExtractOutcome.timeout (by decide)⟩

/-! ## Claim C4: priority ordering -/

/-- C4 counterexample: with the pool saturated and a priority-10 request for
key a already pending, a priority-0 request for key b submitted afterwards is
serviced second, not first: the executor work queue is FIFO and the priority
argument never reaches it. -/
theorem C4_counterexample :
    service_order (submit_to_pool ⟨[("a", 10)]⟩ ("b", 0)) = [("a", 10), ("b", 0)] ∧
    (service_order (submit_to_pool ⟨[("a", 10)]⟩ ("b", 0))).head? ≠ some ("b", 0) := by
  decide

/-- C4 amended: pending resolution work is serviced in FIFO submission order;
the numeric priority argument is ignored: it is not part of what extract_info
submits to the pool, and the whole result of extract_info is independent of
it. The PriorityQueue field created in the constructor
(music_utils.py line 27) is never used. -/
theorem C4_amended_fifo (pool : List (String × Nat)) (j : String × Nat)
    (s : YTDLState) (now : Nat) (ex : String → ExtractOutcome) (q : String)
    (d : Bool) (p1 p2 : Nat) :
    service_order (submit_to_pool ⟨pool⟩ j) = pool ++ [j] ∧
    extract_info_submission q p1 = extract_info_submission q p2 ∧
    extract_info s now ex q d p1 = extract_info s now ex q d p2 :=
  ⟨rfl, rfl, rfl⟩

/-! ## Claim C5: cache check before the worker pool -/

/-- C5 counterexample: the search shape does not consult the cache. With a
non-expired cache entry for the search key of the query hello, search_song
still submits extraction work to the worker pool (third component true),
because search_song (music_utils.py lines 63-76) calls extract_info directly
and only get_audio_source ever calls get_cached_url. -/
theorem C5_counterexample :
    get_cached_url cachedSearchState 1 ("ytsearch1:" ++ "hello") = some "X" ∧
    (search_song cachedSearchState 1 exNone "hello" 1).2.2 = true := by
  decide

/-- C5 amended: only the direct-resolution shape checks the cache first: when
a non-expired entry exists for the url, get_audio_source returns a result
immediately, leaves the state unchanged, and submits nothing to the worker
pool. (The search shape always submits, as the counterexample shows.) -/
theorem C5_amended_direct_hit (s : YTDLState) (now : Nat)
    (ex : String → ExtractOutcome) (url cu : String) (p : Nat)
    (h : get_cached_url s now url = some cu) :
    (get_audio_source s now ex url p).1.isSome = true ∧
    (get_audio_source s now ex url p).2.1 = s ∧
    (get_audio_source s now ex url p).2.2 = false := by
  simp [get_audio_source, h]

/-- C5 amended, witness at a concrete input. -/
theorem C5_amended_direct_hit_witness :
    (get_cached_url (cache_put emptyYTDL 0 "pageu" "streamu") 5 "pageu" = some "streamu") ∧
    ((get_audio_source (cache_put emptyYTDL 0 "pageu" "streamu") 5 exNone "pageu" 0).1.isSome = true ∧
     (get_audio_source (cache_put emptyYTDL 0 "pageu" "streamu") 5 exNone "pageu" 0).2.1 =
       cache_put emptyYTDL 0 "pageu" "streamu" ∧
     (get_audio_source (cache_put emptyYTDL 0 "pageu" "streamu") 5 exNone "pageu" 0).2.2 = false) :=
  ⟨by decide, C5_amended_direct_hit (cache_put emptyYTDL 0 "pageu" "streamu") 5 exNone
    "pageu" "streamu" 0 (by decide)⟩

/-! ## Claim C10: cache-hit metadata loss -/

/-- C10: for every key with a non-expired cache entry, the direct resolve
returns the three-key dict of music_utils.py line 82: title is the literal
Unknown, webpage_url is the input key, there is no thumbnail key, and the
stream url is the cached value — the real title and thumbnail are lost on
every cache hit, since only the stream URL was cached. -/
theorem C10_cache_hit_metadata (s : YTDLState) (now : Nat)
    (ex : String → ExtractOutcome) (url cu : String) (p : Nat)
    (h : get_cached_url s now url = some cu) :
    (get_audio_source s now ex url p).1 =
      some ⟨url, "Unknown", none, some cu⟩ := by
  simp [get_audio_source, h]

/-- C10 witness at a concrete input. -/
theorem C10_cache_hit_metadata_witness :
    (get_cached_url (cache_put emptyYTDL 2 "w" "cw") 9 "w" = some "cw") ∧
    (get_audio_source (cache_put emptyYTDL 2 "w" "cw") 9 exNone "w" 3).1 =
      some ⟨"w", "Unknown", none, some "cw"⟩ :=
  ⟨by decide, C10_cache_hit_metadata (cache_put emptyYTDL 2 "w" "cw") 9 exNone
    "w" "cw" 3 (by decide)⟩

/-! ## Claim C6: connection cooldown -/

/-- C6: a connect call for a guild whose last recorded attempt is at most
10 seconds old is rejected: connect_with_retry returns no handle, performs
zero transport connect operations and sleeps no backoff, because the cooldown
check (voice_manager.py lines 107-110) runs before the attempt loop. -/
theorem C6_connection_cooldown (attempts : List (Nat × Nat)) (g now last : Nat)
    (oracle : Nat → AttemptOutcome) (h : dictGet attempts g = some last)
    (hc : now - last ≤ 10) :
    connect_with_retry attempts g now oracle 3 = ⟨none, 0, []⟩ := by
  have hs : should_retry_connection attempts g now = false := by
    simp [should_retry_connection, h, cooldown_seconds]
    omega
  simp [connect_with_retry, hs]

/-- C6 witness at a concrete input. -/
theorem C6_connection_cooldown_witness :
    (dictGet [((5 : Nat), (100 : Nat))] 5 = some 100 ∧ (105 : Nat) - 100 ≤ 10) ∧
    connect_with_retry [(5, 100)] 5 105 oracle3 3 = ⟨none, 0, []⟩ :=
  ⟨⟨by decide, by decide⟩,
   C6_connection_cooldown [(5, 100)] 5 105 100 oracle3 (by decide) (by decide)⟩

/-! ## Claim C7: retry with exponential backoff -/

/-- A failing attempt falls through to the next one, recording its backoff. -/
theorem connect_loop_fail (oracle : Nat → AttemptOutcome) (fuel a ops : Nat)
    (delays : List Nat) (h : oracle a ≠ AttemptOutcome.ok) :
    connect_loop oracle (fuel + 1) a ops delays =
      connect_loop oracle fuel (a + 1) (ops + 1)
        (if 0 < a then backoff_time 2 a :: delays else delays) := by
  cases ho : oracle a with
  | ok => exact absurd ho h
  | invalid => simp [connect_loop, ho]
  | errClosed code => simp [connect_loop, ho]
  | errTimeout => simp [connect_loop, ho]
  | err => simp [connect_loop, ho]

/-- A successful attempt returns the handle at once. -/
theorem connect_loop_ok (oracle : Nat → AttemptOutcome) (fuel a ops : Nat)
    (delays : List Nat) (h : oracle a = AttemptOutcome.ok) :
    connect_loop oracle (fuel + 1) a ops delays =
      ⟨some a, ops + 1,
        (if 0 < a then backoff_time 2 a :: delays else delays).reverse⟩ := by
  simp [connect_loop, h]

/-- C7: with no cooldown pending, a transport that fails the first two
attempts and succeeds on the third yields a successful handle after exactly
3 transport connect calls; the backoff sleeps performed are 2 seconds before
the second attempt and 4 seconds before the third (base 2, capped at 30),
with no sleep before the first attempt — so the delay before the second
attempt (2s) is at least the absent delay of attempt one (0s). -/
theorem C7_retry_backoff (oracle : Nat → AttemptOutcome) (g now : Nat)
    (h0 : oracle 0 ≠ AttemptOutcome.ok) (h1 : oracle 1 ≠ AttemptOutcome.ok)
    (h2 : oracle 2 = AttemptOutcome.ok) :
    connect_with_retry [] g now oracle 3 = ⟨some 2, 3, [2, 4]⟩ := by
  have hs : should_retry_connection [] g now = true := by
    simp [should_retry_connection, dictGet]
  have e1 := connect_loop_fail oracle 2 0 0 [] h0
  have e2 := connect_loop_fail oracle 1 1 1 [] h1
  have e3 := connect_loop_ok oracle 0 2 2 [2] h2
  norm_num [backoff_time] at e1 e2 e3
  simp only [connect_with_retry, hs, if_true]
  rw [e1, e2, e3]

/-- C7 witness at a concrete input. -/
theorem C7_retry_backoff_witness :
    (oracle3 0 ≠ AttemptOutcome.ok ∧ oracle3 1 ≠ AttemptOutcome.ok ∧
     oracle3 2 = AttemptOutcome.ok) ∧
    connect_with_retry [] 1 0 oracle3 3 = ⟨some 2, 3, [2, 4]⟩ :=
  ⟨⟨by decide, by decide, by decide⟩,
   C7_retry_backoff oracle3 1 0 (by decide) (by decide) (by decide)⟩

/-! ## Claim C1: queue bound -/

/-- C1 counterexample: enqueueing into a playback queue already holding
MAX_QUEUE_SIZE songs does not fail and does not leave the queue unchanged:
the caller is told the song was added, the new song is in the queue, and the
oldest entry has been silently evicted (deque maxlen semantics,
music_improved.py line 30 and line 156). No QueueFull error exists. -/
theorem C1_counterexample :
    (process_enqueue fullQueue (some extraSong) true).2 =
      EnqueueReply.addedToQueue "new title" ∧
    (process_enqueue fullQueue (some extraSong) true).1.items ≠ fullQueue.items ∧
    mkSong 0 ∈ fullQueue.items ∧
    mkSong 0 ∉ (process_enqueue fullQueue (some extraSong) true).1.items ∧
    extraSong ∈ (process_enqueue fullQueue (some extraSong) true).1.items ∧
    (process_enqueue fullQueue (some extraSong) true).1.items.length = MAX_QUEUE_SIZE := by
  decide

/-- C1 amended: enqueueing a found song with a stream url into a full queue
(size = maxlen, maxlen positive) succeeds silently: the oldest entry is
evicted, the song is appended at the back, the length stays at the bound,
and the caller is told the song plays or was queued — never an error. -/
theorem C1_amended_evict (q : BoundedQueue Descriptor) (song : Descriptor)
    (playing : Bool) (hfull : q.items.length = q.maxlen) (hpos : 0 < q.maxlen)
    (hurl : song.url.isSome = true) :
    (process_enqueue q (some song) playing).1.items = q.items.tail ++ [song] ∧
    (process_enqueue q (some song) playing).1.items.length = q.maxlen ∧
    (process_enqueue q (some song) playing).2 =
      (if playing then EnqueueReply.addedToQueue song.title
       else EnqueueReply.nowPlaying song.title) := by
  have hnf : ¬ q.items.length < q.maxlen := by omega
  have hz : ¬ q.maxlen = 0 := by omega
  refine ⟨?_, ?_, ?_⟩
  · simp [process_enqueue, hurl, BoundedQueue.append, hnf, hz]
  · simp [process_enqueue, hurl, BoundedQueue.append, hnf, hz]
    omega
  · simp [process_enqueue, hurl, BoundedQueue.append, hnf, hz]

/-- C1 amended, witness at a concrete input. -/
theorem C1_amended_evict_witness :
    ((BoundedQueue.mk 1 [songU] : BoundedQueue Descriptor).items.length = 1 ∧
     (0 : Nat) < 1 ∧ songV.url.isSome = true) ∧
    ((process_enqueue ⟨1, [songU]⟩ (some songV) true).1.items = [songU].tail ++ [songV] ∧
     (process_enqueue ⟨1, [songU]⟩ (some songV) true).1.items.length = 1 ∧
     (process_enqueue ⟨1, [songU]⟩ (some songV) true).2 =
       (if true then EnqueueReply.addedToQueue songV.title
        else EnqueueReply.nowPlaying songV.title)) :=
  ⟨⟨by decide, by decide, by decide⟩,
   C1_amended_evict ⟨1, [songU]⟩ songV true (by decide) (by decide) (by decide)⟩

/-! ## Claim C8: drain on error -/

/-- C8 counterexample: with a 3-item queue whose head fails both the
streaming and the download path, play_next reports the error and moves on to
the former second item — but the queue ends with ONE item (the former third),
not two: advancing to the second item pops it from the queue to play it. -/
theorem C8_counterexample :
    play_next resolveAB ⟨[songA, songB, songC], none, []⟩ =
      ⟨[songC], some songB, ["A"]⟩ ∧
    (play_next resolveAB ⟨[songA, songB, songC], none, []⟩).queue.length ≠ 2 := by
  decide

/-- C8 amended: if resolving the head of a 3-item queue fails entirely and
the second item resolves, the head error is reported, playback moves on to
the former second item (now the current song), and the queue ends with one
item, the former third — two of the original three tracks remain in the
system, one playing and one queued; the queue does not stall. -/
theorem C8_amended_drain (resolve : String → ResolveOutcome) (a b c : Descriptor)
    (cur : Option Descriptor) (errs : List String)
    (ha : resolve a.webpage_url = ResolveOutcome.bothFail)
    (hb : resolve b.webpage_url ≠ ResolveOutcome.bothFail) :
    play_next resolve ⟨[a, b, c], cur, errs⟩ = ⟨[c], some b, errs ++ [a.title]⟩ := by
  cases hb2 : resolve b.webpage_url with
  | bothFail => exact absurd hb2 hb
  | streamOk => simp [play_next, play_next_go, ha, hb2]
  | downloadOk => simp [play_next, play_next_go, ha, hb2]

/-- C8 amended, witness at a concrete input. -/
theorem C8_amended_drain_witness :
    (resolveAB songA.webpage_url = ResolveOutcome.bothFail ∧
     resolveAB songB.webpage_url ≠ ResolveOutcome.bothFail) ∧
    play_next resolveAB ⟨[songA, songB, songC], some songA, ["x"]⟩ =
      ⟨[songC], some songB, ["x", "A"]⟩ :=
  ⟨⟨by decide, by decide⟩,
   C8_amended_drain resolveAB songA songB songC (some songA) ["x"]
     (by decide) (by decide)⟩

/-! ## Claim C9: at most one timer task per guild and kind -/

/-- Projections of setTracked: the chosen kind gets the new dict. -/
theorem tracked_setTracked_same (s : TimerSys) (k : TimerKind) (m : List (Nat × Nat)) :
    (setTracked s k m).tracked k = m := by
  cases k <;> rfl

/-- Projections of setTracked: other kinds keep their dict. -/
theorem tracked_setTracked_other (s : TimerSys) (k k2 : TimerKind) (m : List (Nat × Nat))
    (h : k2 ≠ k) : (setTracked s k m).tracked k2 = s.tracked k2 := by
  cases k <;> cases k2 <;> first | rfl | exact absurd rfl h

/-- setTracked does not touch the alive set. -/
theorem alive_setTracked (s : TimerSys) (k : TimerKind) (m : List (Nat × Nat)) :
    (setTracked s k m).alive = s.alive := by
  cases k <;> rfl

/-- Updating nextId and alive does not touch the tracking dicts. -/
theorem tracked_update (s : TimerSys) (n : Nat) (l : List (Nat × TimerKind × Nat))
    (k : TimerKind) :
    TimerSys.tracked { s with nextId := n, alive := l } k = s.tracked k := by
  cases k <;> rfl

/-- Updating alive alone does not touch the tracking dicts. -/
theorem tracked_update_alive (s : TimerSys) (l : List (Nat × TimerKind × Nat))
    (k : TimerKind) :
    TimerSys.tracked { s with alive := l } k = s.tracked k := by
  cases k <;> rfl

/-- What startTimer does to the alive set. -/
theorem startTimer_alive (s : TimerSys) (g : Nat) (k : TimerKind) :
    (startTimer s g k).alive = (g, k, s.nextId) ::
      (match dictGet (s.tracked k) g with
       | some id => removeAlive s.alive g k id
       | none => s.alive) := by
  unfold startTimer
  cases hd : dictGet (s.tracked k) g <;> simp [hd, alive_setTracked]

/-- What startTimer does to the dict of its kind. -/
theorem startTimer_tracked_same (s : TimerSys) (g : Nat) (k : TimerKind) :
    (startTimer s g k).tracked k = dictSet (s.tracked k) g s.nextId := by
  unfold startTimer
  cases hd : dictGet (s.tracked k) g <;> simp [hd, tracked_setTracked_same]

/-- startTimer leaves the dicts of other kinds alone. -/
theorem startTimer_tracked_other (s : TimerSys) (g : Nat) (k k2 : TimerKind)
    (h : k2 ≠ k) : (startTimer s g k).tracked k2 = s.tracked k2 := by
  unfold startTimer
  cases hd : dictGet (s.tracked k) g <;>
    simp [hd, tracked_setTracked_other _ _ _ _ h, tracked_update]

/-- Membership survives into the original list. -/
theorem mem_of_mem_removeAlive {l : List (Nat × TimerKind × Nat)}
    {x : Nat × TimerKind × Nat} {g : Nat} {k : TimerKind} {id : Nat}
    (h : x ∈ removeAlive l g k id) : x ∈ l := by
  induction l with
  | nil => simpa [removeAlive] using h
  | cons t rest ih =>
    by_cases ht : t.1 = g ∧ t.2.1 = k ∧ t.2.2 = id
    · rw [removeAlive, if_pos ht] at h
      exact List.mem_cons_of_mem _ (ih h)
    · rw [removeAlive, if_neg ht] at h
      rcases List.mem_cons.mp h with he | hm
      · exact he ▸ List.mem_cons_self _ _
      · exact List.mem_cons_of_mem _ (ih hm)

/-- The removed task is gone entirely. -/
theorem not_mem_removeAlive (l : List (Nat × TimerKind × Nat)) (g : Nat)
    (k : TimerKind) (id : Nat) : (g, k, id) ∉ removeAlive l g k id := by
  induction l with
  | nil => simp [removeAlive]
  | cons t rest ih =>
    obtain ⟨a, b, c⟩ := t
    by_cases ht : a = g ∧ b = k ∧ c = id
    · rw [removeAlive, if_pos (by simpa using ht)]
      exact ih
    · rw [removeAlive, if_neg (by simpa using ht)]
      intro hmem
      rcases List.mem_cons.mp hmem with he | hm
      · injection he with h1 h2
        injection h2 with h3 h4
        exact ht ⟨h1.symm, h3.symm, h4.symm⟩
      · exact ih hm

/-- Removal never increases any alive count. -/
theorem countAliveL_removeAlive_le (l : List (Nat × TimerKind × Nat)) (g : Nat)
    (k : TimerKind) (id : Nat) (g2 : Nat) (k2 : TimerKind) :
    countAliveL (removeAlive l g k id) g2 k2 ≤ countAliveL l g2 k2 := by
  induction l with
  | nil => simp [removeAlive, countAliveL]
  | cons t rest ih =>
    by_cases ht : t.1 = g ∧ t.2.1 = k ∧ t.2.2 = id
    · rw [removeAlive, if_pos ht]
      rw [countAliveL]
      omega
    · rw [removeAlive, if_neg ht]
      rw [countAliveL, countAliveL]
      omega

/-- If every alive task of the pair carries the tracked id, removing that id
leaves no alive task of the pair. -/
theorem countAliveL_removeAlive_all (l : List (Nat × TimerKind × Nat)) (g : Nat)
    (k : TimerKind) (id : Nat) (h : ∀ id2, (g, k, id2) ∈ l → id2 = id) :
    countAliveL (removeAlive l g k id) g k = 0 := by
  induction l with
  | nil => simp [removeAlive, countAliveL]
  | cons t rest ih =>
    obtain ⟨a, b, c⟩ := t
    have ihr := ih (fun id2 hm => h id2 (List.mem_cons_of_mem _ hm))
    by_cases hab : a = g ∧ b = k
    · obtain ⟨hg, hk⟩ := hab
      subst hg
      subst hk
      have hc : c = id := h c (List.mem_cons_self _ _)
      subst hc
      rw [removeAlive, if_pos (by simp)]
      exact ihr
    · rw [removeAlive, if_neg (by simpa using fun hg hk _ => hab ⟨hg, hk⟩)]
      rw [countAliveL]
      simp only [ihr]
      rw [if_neg (by simpa using hab)]

/-- A pair with no alive task counts zero. -/
theorem countAliveL_eq_zero (l : List (Nat × TimerKind × Nat)) (g : Nat)
    (k : TimerKind) (h : ∀ id, (g, k, id) ∉ l) : countAliveL l g k = 0 := by
  induction l with
  | nil => simp [countAliveL]
  | cons t rest ih =>
    obtain ⟨a, b, c⟩ := t
    have ihr := ih (fun id hm => h id (List.mem_cons_of_mem _ hm))
    have hab : ¬ (a = g ∧ b = k) := by
      rintro ⟨hg, hk⟩
      subst hg
      subst hk
      exact h c (List.mem_cons_self _ _)
    rw [countAliveL]
    simp only [ihr]
    rw [if_neg (by simpa using hab)]

/-- A zero count means no alive task of the pair. -/
theorem not_mem_of_countAliveL_eq_zero {l : List (Nat × TimerKind × Nat)}
    {g : Nat} {k : TimerKind} (h : countAliveL l g k = 0) (id : Nat) :
    (g, k, id) ∉ l := by
  induction l with
  | nil => simp
  | cons t rest ih =>
    obtain ⟨a, b, c⟩ := t
    by_cases hab : a = g ∧ b = k
    · rw [countAliveL, if_pos (by simpa using hab)] at h
      omega
    · rw [countAliveL, if_neg (by simpa using hab)] at h
      simp only [Nat.zero_add] at h
      intro hmem
      rcases List.mem_cons.mp hmem with he | hm
      · injection he with h1 h2
        injection h2 with h3 h4
        exact hab ⟨h1.symm, h3.symm⟩
      · exact ih h hm

/-- Erasing one key leaves reads of other keys unchanged. -/
theorem dictGet_dictErase_ne {κ α : Type} [DecidableEq κ] (m : List (κ × α)) (k k2 : κ)
    (h : k2 ≠ k) : dictGet (dictErase m k) k2 = dictGet m k2 := by
  have h2 : ¬ k = k2 := fun hh => h hh.symm
  induction m with
  | nil => simp [dictErase]
  | cons p rest ih =>
    obtain ⟨a, b⟩ := p
    by_cases ha : a = k
    · subst ha
      simp [dictErase, dictGet, h2, ih]
    · simp [dictErase, dictGet, ha, ih]

/-- startTimer preserves the timer invariant. -/
theorem TimerInv_start (s : TimerSys) (g : Nat) (k : TimerKind) (h : TimerInv s) :
    TimerInv (startTimer s g k) := by
  intro g2 k2
  cases hd : dictGet (s.tracked k) g with
  | some id =>
    have hz : countAliveL (removeAlive s.alive g k id) g k = 0 := by
      refine countAliveL_removeAlive_all s.alive g k id (fun id2 hm => ?_)
      have h2 := (h g k).2 id2 hm
      rw [hd] at h2
      injection h2 with hh
      exact hh.symm
    have halive : (startTimer s g k).alive =
        (g, k, s.nextId) :: removeAlive s.alive g k id := by
      rw [startTimer_alive, hd]
    constructor
    · rw [halive, countAliveL]
      by_cases hp : g = g2 ∧ k = k2
      · obtain ⟨hg, hk⟩ := hp
        rw [if_pos (by simp [hg, hk])]
        rw [← hg, ← hk]
        omega
      · rw [if_neg (by simpa using fun hg hk => hp ⟨hg, hk⟩)]
        have h1 := countAliveL_removeAlive_le s.alive g k id g2 k2
        have h2 := (h g2 k2).1
        omega
    · intro id2 hm
      rw [halive] at hm
      rcases List.mem_cons.mp hm with he | hmem
      · injection he with e1 e2
        injection e2 with e3 e4
        rw [e1.symm, e3.symm] at hd ⊢
        rw [e4, startTimer_tracked_same, dictGet_dictSet_self]
      · by_cases hk2 : k2 = k
        · by_cases hg2 : g2 = g
          · exfalso
            rw [hg2, hk2] at hmem
            have h2 := (h g k).2 id2 (mem_of_mem_removeAlive hmem)
            rw [hd] at h2
            injection h2 with hh
            rw [hh.symm] at hmem
            exact not_mem_removeAlive s.alive g k id hmem
          · rw [hk2, startTimer_tracked_same, dictGet_dictSet_ne _ _ _ _ hg2]
            rw [hk2] at hmem
            exact (h g2 k).2 id2 (mem_of_mem_removeAlive hmem)
        · rw [startTimer_tracked_other _ _ _ _ hk2]
          exact (h g2 k2).2 id2 (mem_of_mem_removeAlive hmem)
  | none =>
    have hz : countAliveL s.alive g k = 0 := by
      refine countAliveL_eq_zero s.alive g k (fun id hm => ?_)
      have h2 := (h g k).2 id hm
      rw [hd] at h2
      exact Option.noConfusion h2
    have halive : (startTimer s g k).alive = (g, k, s.nextId) :: s.alive := by
      rw [startTimer_alive, hd]
    constructor
    · rw [halive, countAliveL]
      by_cases hp : g = g2 ∧ k = k2
      · obtain ⟨hg, hk⟩ := hp
        rw [if_pos (by simp [hg, hk])]
        rw [← hg, ← hk]
        omega
      · rw [if_neg (by simpa using fun hg hk => hp ⟨hg, hk⟩)]
        have h2 := (h g2 k2).1
        omega
    · intro id2 hm
      rw [halive] at hm
      rcases List.mem_cons.mp hm with he | hmem
      · injection he with e1 e2
        injection e2 with e3 e4
        rw [e1.symm, e3.symm] at hd ⊢
        rw [e4, startTimer_tracked_same, dictGet_dictSet_self]
      · by_cases hk2 : k2 = k
        · by_cases hg2 : g2 = g
          · exfalso
            rw [hg2, hk2] at hmem
            have h2 := (h g k).2 id2 hmem
            rw [hd] at h2
            exact Option.noConfusion h2
          · rw [hk2, startTimer_tracked_same, dictGet_dictSet_ne _ _ _ _ hg2]
            rw [hk2] at hmem
            exact (h g2 k).2 id2 hmem
        · rw [startTimer_tracked_other _ _ _ _ hk2]
          exact (h g2 k2).2 id2 hmem

/-- cancelTimer preserves the timer invariant. -/
theorem TimerInv_cancel (s : TimerSys) (g : Nat) (k : TimerKind) (h : TimerInv s) :
    TimerInv (cancelTimer s g k) := by
  intro g2 k2
  cases hd : dictGet (s.tracked k) g with
  | none =>
    have : cancelTimer s g k = s := by
      unfold cancelTimer
      rw [hd]
    rw [this]
    exact h g2 k2
  | some id =>
    have halive : (cancelTimer s g k).alive = removeAlive s.alive g k id := by
      unfold cancelTimer
      rw [hd, alive_setTracked]
    constructor
    · rw [halive]
      exact le_trans (countAliveL_removeAlive_le s.alive g k id g2 k2) (h g2 k2).1
    · intro id2 hm
      rw [halive] at hm
      have hmem := mem_of_mem_removeAlive hm
      have htr := (h g2 k2).2 id2 hmem
      by_cases hk2 : k2 = k
      · by_cases hg2 : g2 = g
        · exfalso
          rw [hg2, hk2] at hm htr
          rw [hd] at htr
          injection htr with hh
          rw [hh.symm] at hm
          exact not_mem_removeAlive s.alive g k id hm
        · have htrk : (cancelTimer s g k).tracked k = dictErase (s.tracked k) g := by
            unfold cancelTimer
            rw [hd, tracked_setTracked_same]
          rw [hk2, htrk, dictGet_dictErase_ne _ _ _ hg2]
          rw [hk2] at htr
          exact htr
      · have htrk : (cancelTimer s g k).tracked k2 = s.tracked k2 := by
          unfold cancelTimer
          rw [hd, tracked_setTracked_other _ _ _ _ hk2, tracked_update_alive]
        rw [htrk]
        exact htr

/-- taskFinish preserves the timer invariant. -/
theorem TimerInv_taskFinish (s : TimerSys) (g : Nat) (k : TimerKind) (id : Nat)
    (h : TimerInv s) : TimerInv (taskFinish s g k id) := by
  intro g2 k2
  have halive : (taskFinish s g k id).alive = removeAlive s.alive g k id := rfl
  have htrk : (taskFinish s g k id).tracked k2 = s.tracked k2 := by
    unfold taskFinish
    rw [tracked_update_alive]
  constructor
  · rw [halive]
    exact le_trans (countAliveL_removeAlive_le s.alive g k id g2 k2) (h g2 k2).1
  · intro id2 hm
    rw [halive] at hm
    rw [htrk]
    exact (h g2 k2).2 id2 (mem_of_mem_removeAlive hm)

/-- Every operation preserves the timer invariant. -/
theorem TimerInv_applyOp (s : TimerSys) (op : TimerOp) (h : TimerInv s) :
    TimerInv (applyOp s op) := by
  cases op with
  | start g k => exact TimerInv_start s g k h
  | cancel g k => exact TimerInv_cancel s g k h
  | finish g k id => exact TimerInv_taskFinish s g k id h

/-- The initial state satisfies the timer invariant. -/
theorem TimerInv_initSys : TimerInv initSys := by
  intro g k
  constructor
  · simp [initSys, countAliveL]
  · intro id hm
    simp [initSys] at hm

/-- Any operation sequence preserves the timer invariant. -/
theorem TimerInv_runOps (ops : List TimerOp) (s : TimerSys) (h : TimerInv s) :
    TimerInv (runOps s ops) := by
  induction ops generalizing s with
  | nil => exact h
  | cons op rest ih =>
    have : runOps s (op :: rest) = runOps (applyOp s op) rest := rfl
    rw [this]
    exact ih (applyOp s op) (TimerInv_applyOp s op h)

/-- Under the invariant, starting a timer leaves exactly one alive task of
that guild and kind: the freshly created one; the prior task was cancelled. -/
theorem countAliveL_startTimer (s : TimerSys) (g : Nat) (k : TimerKind)
    (h : TimerInv s) : countAliveL (startTimer s g k).alive g k = 1 := by
  cases hd : dictGet (s.tracked k) g with
  | some id =>
    have hz : countAliveL (removeAlive s.alive g k id) g k = 0 := by
      refine countAliveL_removeAlive_all s.alive g k id (fun id2 hm => ?_)
      have h2 := (h g k).2 id2 hm
      rw [hd] at h2
      injection h2 with hh
      exact hh.symm
    have halive : (startTimer s g k).alive =
        (g, k, s.nextId) :: removeAlive s.alive g k id := by
      rw [startTimer_alive, hd]
    rw [halive, countAliveL, if_pos (by simp), hz]
  | none =>
    have hz : countAliveL s.alive g k = 0 := by
      refine countAliveL_eq_zero s.alive g k (fun id hm => ?_)
      have h2 := (h g k).2 id hm
      rw [hd] at h2
      exact Option.noConfusion h2
    have halive : (startTimer s g k).alive = (g, k, s.nextId) :: s.alive := by
      rw [startTimer_alive, hd]
    rw [halive, countAliveL, if_pos (by simp), hz]

/-- C9: for every guild and every timer kind (session-refresh, keepalive,
inactivity), in any state the manager can reach from construction by
starting timers, cancelling them and having them self-terminate, at most one
timer task of that kind is alive for that guild; and starting a new timer of
a kind leaves exactly one alive (the fresh one), because every creation site
first cancels the tracked predecessor. -/
theorem C9_single_timer_per_kind (ops : List TimerOp) (g : Nat) (k : TimerKind) :
    countAliveL (runOps initSys ops).alive g k ≤ 1 ∧
    countAliveL (startTimer (runOps initSys ops) g k).alive g k = 1 := by
  have hinv := TimerInv_runOps ops initSys TimerInv_initSys
  exact ⟨(hinv g k).1, countAliveL_startTimer (runOps initSys ops) g k hinv⟩
